import Mathlib

/-!
Verification of `power_monitor.py` (PowerMonitorCSVS).

Shallow embedding of the source modules:
* `PowerMath.calculate`      — voltage-to-current/power transformation,
* `StateClassifier.classify` — threshold state classification,
* `CSVLogger`                — buffered CSV logging with flush,
* `Collector`                — sampling / acquisition loop.

Python floats are modelled as real numbers; the value-level NaN behaviour of
the classifier is additionally modelled over an explicit NaN-carrying type.
Machine-integer counters are plain naturals (Python integers are unbounded).
File-system effects are modelled by explicit state: the CSV file is a list of
lines, and a fallible append is parametrised by a success flag.
-/

namespace PowerMonitor

/-- Embedding of class `PowerMath` (power_monitor.py, lines 96-109): the
calibration constants held by the object.  `phases` is a Python `int`. -/
structure PowerMath where
  gain : ℝ
  ct_range : ℝ
  line_voltage : ℝ
  phases : ℤ

/-- `PowerMath.ONE_OVER_SQRT2 = 1 / math.sqrt(2)` (line 101). -/
noncomputable def one_over_sqrt2 : ℝ := 1 / Real.sqrt 2

/-- Embedding of `PowerMath.calculate` (lines 104-109): returns the pair
`(rms_current, power_w)`. -/
noncomputable def PowerMath.calculate (m : PowerMath) (avg_adc_voltage : ℝ) : ℝ × ℝ :=
  let amplifier_voltage_in := avg_adc_voltage / m.gain
  let clamp_current := amplifier_voltage_in * m.ct_range
  let rms_current := clamp_current * one_over_sqrt2
  let power_w := (m.phases : ℝ) * rms_current * m.line_voltage
  (rms_current, power_w)

/-- Embedding of `StateClassifier.classify` (lines 121-126) with floats read
as real numbers.  The source returns the strings "idle", "fault", "running". -/
noncomputable def StateClassifier.classify
    (idle_threshold fault_threshold current_rms : ℝ) : String :=
  if current_rms < idle_threshold then "idle"
  else if current_rms > fault_threshold then "fault"
  else "running"

/-- A float value as seen by the comparisons in `StateClassifier.classify`:
either NaN or a finite value (finite values modelled by rationals).  Used to
settle the totality/NaN claim, which is about IEEE-754 comparison semantics. -/
inductive FloatVal where
  | nan : FloatVal
  | fin : ℚ → FloatVal

/-- IEEE-754 `<` on `FloatVal`: any comparison involving NaN is false. -/
def FloatVal.lt : FloatVal → FloatVal → Bool
  | FloatVal.fin a, FloatVal.fin b => decide (a < b)
  | _, _ => false

/-- Embedding of `StateClassifier.classify` (lines 121-126) over `FloatVal`,
keeping the IEEE comparison semantics exact (`x > y` is `y < x`). -/
def StateClassifier.classifyF
    (idle_threshold fault_threshold current_rms : FloatVal) : String :=
  if FloatVal.lt current_rms idle_threshold then "idle"
  else if FloatVal.lt fault_threshold current_rms then "fault"
  else "running"

/-- A line of the CSV file on disk: the header row or one data row holding a
record of type `α` (the Python logger takes arbitrary dicts). -/
inductive CSVLine (α : Type) where
  | header : CSVLine α
  | data : α → CSVLine α

/-- Whether a CSV line is the header row. -/
def CSVLine.isHeader {α : Type} : CSVLine α → Bool
  | CSVLine.header => true
  | CSVLine.data _ => false

/-- Whether a CSV line is a data row. -/
def CSVLine.isData {α : Type} : CSVLine α → Bool
  | CSVLine.header => false
  | CSVLine.data _ => true

/-- Number of header lines in a file. -/
def headerCount {α : Type} (ls : List (CSVLine α)) : ℕ := ls.countP CSVLine.isHeader

/-- Number of data rows in a file. -/
def dataCount {α : Type} (ls : List (CSVLine α)) : ℕ := ls.countP CSVLine.isData

/-- State of a `CSVLogger` (power_monitor.py, lines 133-163) together with the
contents of its CSV file (the single writer owns the file).  `flush_count` is a
ghost counter, not present in the source, counting the flushes that performed a
write; it is used only to state the flush-count claims. -/
structure CSVLogger (α : Type) where
  file : List (CSVLine α)
  buffer : List α
  total_written : ℕ
  flush_interval : ℕ
  flush_count : ℕ

/-- Embedding of `CSVLogger.__init__` and `_write_headers` (lines 139-151):
`existing` is the prior contents of the file at `self.path`, `none` when the
file does not exist.  A missing file is created holding only the header row;
an existing file is left exactly as it is. -/
def CSVLogger.init {α : Type} (flush_interval : ℕ)
    (existing : Option (List (CSVLine α))) : CSVLogger α :=
  { file := match existing with
      | none => [CSVLine.header]
      | some ls => ls
    buffer := []
    total_written := 0
    flush_interval := flush_interval
    flush_count := 0 }

/-- Embedding of `CSVLogger.flush` (lines 154-161).  The `writerows` append is
one fallible operation, its success given by `write_ok`; on failure the Python
exception propagates before `total_written` and `buffer` are touched, so the
state is returned unchanged with the failure flag `false`. -/
def CSVLogger.flush {α : Type} (s : CSVLogger α) (write_ok : Bool) :
    CSVLogger α × Bool :=
  if s.buffer.isEmpty then (s, true)
  else if write_ok then
    ({ file := s.file ++ s.buffer.map CSVLine.data
       buffer := []
       total_written := s.total_written + s.buffer.length
       flush_interval := s.flush_interval
       flush_count := s.flush_count + 1 }, true)
  else (s, false)

/-- Embedding of `CSVLogger.log` (lines 149-152): append to the buffer, then
flush when the buffer has reached the flush interval. -/
def CSVLogger.log {α : Type} (s : CSVLogger α) (r : α) : CSVLogger α :=
  let s1 : CSVLogger α := { s with buffer := s.buffer ++ [r] }
  if s1.flush_interval ≤ s1.buffer.length then (s1.flush true).1 else s1

/-- Logging a list of records one by one through `CSVLogger.log`. -/
def CSVLogger.logMany {α : Type} (s : CSVLogger α) (rs : List α) : CSVLogger α :=
  rs.foldl CSVLogger.log s

/-- An operation on the logger, for the reopen/append claims: constructing a
new `CSVLogger` on the same (now existing) file, logging a record, or an
explicit flush. -/
inductive LogOp (α : Type) where
  | reopen : LogOp α
  | logRec : α → LogOp α
  | flushBuf : LogOp α

/-- Apply one `LogOp` to the logger state. -/
def CSVLogger.applyOp {α : Type} (s : CSVLogger α) : LogOp α → CSVLogger α
  | LogOp.reopen => CSVLogger.init s.flush_interval (some s.file)
  | LogOp.logRec r => s.log r
  | LogOp.flushBuf => (s.flush true).1

/-- Apply a sequence of `LogOp`s. -/
def CSVLogger.applyOps {α : Type} (s : CSVLogger α) (ops : List (LogOp α)) :
    CSVLogger α :=
  ops.foldl CSVLogger.applyOp s

/-- Embedding of class `Config` (power_monitor.py, lines 34-64): the fields the
collector pipeline reads.  The identity strings, the CSV path and the
inter-window pause are omitted: no claim concerns them, and the pause only
calls `time.sleep`, which does not change the modelled state. -/
structure Config where
  amplifier_gain : ℝ
  ct_range_amps : ℝ
  line_voltage : ℝ
  phases : ℤ
  sample_rate_hz : ℝ
  averaging_window : ℕ
  idle_threshold : ℝ
  fault_threshold : ℝ
  csv_flush_interval : ℕ
  max_records : ℕ

/-- One persisted record (lines 195-203), minus the wall-clock timestamp and
the identity strings, which no claim concerns. -/
structure MeasurementRecord where
  current_rms : ℝ
  voltage : ℝ
  power_w : ℝ
  state : String

/-- Python `round(x, d)` over the reals (Python rounds ties to even, `round`
here rounds them up; no claim depends on tie behaviour). -/
noncomputable def roundTo (d : ℕ) (x : ℝ) : ℝ :=
  ((round (x * 10 ^ d) : ℤ) : ℝ) / 10 ^ d

/-- A timing/sampling event inside one averaging window: one drawn sample, or
one `time.sleep` of the given duration. -/
inductive SampleEvent where
  | sample : ℝ → SampleEvent
  | sleep : ℝ → SampleEvent

/-- The value carried by a `sample` event. -/
def sampleValue : SampleEvent → Option ℝ
  | SampleEvent.sample v => some v
  | SampleEvent.sleep _ => none

/-- The event sequence of the `for` loop in `Collector.sample_window`
(lines 179-183): starting at sensor-stream index `idx`, each of the `w`
iterations draws one sample and then sleeps for `interval`. -/
def sampleEvents (sensor : ℕ → ℝ) (interval : ℝ) : ℕ → ℕ → List SampleEvent
  | _, 0 => []
  | idx, w + 1 =>
    SampleEvent.sample (sensor idx) :: SampleEvent.sleep interval
      :: sampleEvents sensor interval (idx + 1) w

/-- State of a `Collector` (lines 168-209).  The ADC of `MCP3008ADC` is
modelled as the stream `sensor` of voltage readings consumed at cursor
`sample_idx`. -/
structure Collector where
  cfg : Config
  sensor : ℕ → ℝ
  sample_idx : ℕ
  logger : CSVLogger MeasurementRecord
  record_count : ℕ

/-- Embedding of `Collector.__init__` (lines 169-175): build the logger on the
store (`existing` as in `CSVLogger.init`) and zero the cycle counter.  No
configuration value is validated here, exactly as in the source. -/
def Collector.init (cfg : Config) (sensor : ℕ → ℝ)
    (existing : Option (List (CSVLine MeasurementRecord))) : Collector :=
  { cfg := cfg
    sensor := sensor
    sample_idx := 0
    logger := CSVLogger.init cfg.csv_flush_interval existing
    record_count := 0 }

/-- Embedding of `Collector.sample_window` (lines 177-184): returns the event
trace of the loop, the window average `sum(samples) / len(samples)`, and the
collector with its sensor cursor advanced past the consumed samples. -/
noncomputable def Collector.sample_window (c : Collector) :
    List SampleEvent × ℝ × Collector :=
  let interval := 1 / c.cfg.sample_rate_hz
  let events := sampleEvents c.sensor interval c.sample_idx c.cfg.averaging_window
  let samples := events.filterMap sampleValue
  (events, samples.sum / (samples.length : ℝ),
    { c with sample_idx := c.sample_idx + c.cfg.averaging_window })

/-- One iteration of the `while` body of `Collector.run` (lines 190-205):
sample a window, run `PowerMath.calculate` and `StateClassifier.classify` with
the constants from the configuration (as wired in `Collector.__init__`), build
the record, hand it to the logger and advance the cycle counter. -/
noncomputable def Collector.step (c : Collector) : Collector :=
  let w := c.sample_window
  let avg_v := w.2.1
  let c1 := w.2.2
  let m : PowerMath :=
    ⟨c.cfg.amplifier_gain, c.cfg.ct_range_amps, c.cfg.line_voltage, c.cfg.phases⟩
  let res := m.calculate avg_v
  let state := StateClassifier.classify c.cfg.idle_threshold c.cfg.fault_threshold res.1
  let record : MeasurementRecord :=
    { current_rms := roundTo 4 res.1
      voltage := roundTo 1 c.cfg.line_voltage
      power_w := roundTo 2 res.2
      state := state }
  { c1 with logger := c1.logger.log record, record_count := c1.record_count + 1 }

/-- Embedding of `Collector.run` (lines 186-207), fuelled: `none` when the
fuel runs out with the loop still running.  The break fires when `MAX_RECORDS`
is truthy (nonzero) and the cycle counter has reached it; on the way out
`flush()` is called once, unconditionally.  The optional inter-window
`time.sleep` does not change the modelled state. -/
noncomputable def Collector.run : ℕ → Collector → Option Collector
  | 0, _ => none
  | fuel + 1, c =>
    let c1 := c.step
    if c1.cfg.max_records ≠ 0 ∧ c1.cfg.max_records ≤ c1.record_count then
      some { c1 with logger := (c1.logger.flush true).1 }
    else Collector.run fuel c1

end PowerMonitor

namespace PowerMonitor

/-- C1: SignalTransform formula and concrete values.  General part: for every
calibration and every averaged voltage, `calculate` returns
`rms = (v / gain) * ct_range / sqrt 2` and `power = phases * rms * line_voltage`.
Concrete part: for gain 100, ct 50, line voltage 230, 3 phases and `v_avg = 1`,
`rms_current` is within `10⁻⁵` of `0.35355` and `power_w` within `10⁻²`
of `243.95`. -/
theorem claim1_signal_transform :
    (∀ (m : PowerMath) (v : ℝ),
      (m.calculate v).1 = v / m.gain * m.ct_range / Real.sqrt 2 ∧
      (m.calculate v).2 = (m.phases : ℝ) * (m.calculate v).1 * m.line_voltage) ∧
    |((PowerMath.mk 100 50 230 3).calculate 1).1 - 0.35355| < 1 / 100000 ∧
    |((PowerMath.mk 100 50 230 3).calculate 1).2 - 243.95| < 1 / 100 := by
  have hs2 : Real.sqrt 2 ^ 2 = 2 := Real.sq_sqrt (by norm_num)
  have hpos : (0 : ℝ) < Real.sqrt 2 := Real.sqrt_pos.mpr (by norm_num)
  have hlo : (1.4142135 : ℝ) < Real.sqrt 2 := by
    nlinarith [hs2, hpos]
  have hhi : Real.sqrt 2 < (1.4142136 : ℝ) := by
    nlinarith [hs2, hpos]
  have e : 1 / Real.sqrt 2 = Real.sqrt 2 / 2 := by
    rw [div_eq_div_iff hpos.ne' (by norm_num : (2:ℝ) ≠ 0)]
    nlinarith [hs2]
  refine ⟨?_, ?_, ?_⟩
  · intro m v
    constructor
    · simp only [PowerMath.calculate, one_over_sqrt2]
      rw [mul_one_div]
    · simp only [PowerMath.calculate]
  · simp only [PowerMath.calculate, one_over_sqrt2]
    rw [abs_lt, e]
    constructor <;> linarith [hlo, hhi]
  · simp only [PowerMath.calculate, one_over_sqrt2]
    rw [abs_lt, e]
    push_cast
    constructor <;> linarith [hlo, hhi]

/-- C3: classification rule and boundary law.  Under `idle < fault`, the result
is "idle" iff the current is strictly below the idle threshold, "fault" iff it
is strictly above the fault threshold, "running" iff it lies in the closed
band; both exact threshold values classify as "running". -/
theorem claim3_classifier_boundaries (idleT faultT x : ℝ) (h : idleT < faultT) :
    (StateClassifier.classify idleT faultT x = "idle" ↔ x < idleT) ∧
    (StateClassifier.classify idleT faultT x = "fault" ↔ faultT < x) ∧
    (StateClassifier.classify idleT faultT x = "running" ↔ idleT ≤ x ∧ x ≤ faultT) ∧
    StateClassifier.classify idleT faultT idleT = "running" ∧
    StateClassifier.classify idleT faultT faultT = "running" := by
  have hb1 : StateClassifier.classify idleT faultT idleT = "running" := by
    unfold StateClassifier.classify
    rw [if_neg (lt_irrefl idleT), if_neg (not_lt.mpr h.le)]
  have hb2 : StateClassifier.classify idleT faultT faultT = "running" := by
    unfold StateClassifier.classify
    rw [if_neg (not_lt.mpr h.le), if_neg (lt_irrefl faultT)]
  refine ⟨?_, ?_, ?_, hb1, hb2⟩ <;>
    · unfold StateClassifier.classify
      split_ifs with h1 h2 <;>
        simp_all <;> linarith

/-- Witness for C3 at the concrete spec thresholds 0.5 and 100. -/
theorem claim3_classifier_boundaries_witness :
    StateClassifier.classify 0.5 100 0.5 = "running" ∧
    StateClassifier.classify 0.5 100 0.4999 = "idle" ∧
    StateClassifier.classify 0.5 100 100 = "running" ∧
    StateClassifier.classify 0.5 100 100.0001 = "fault" := by
  refine ⟨?_, ?_, ?_, ?_⟩
  · exact (claim3_classifier_boundaries 0.5 100 0.5 (by norm_num)).2.2.1.mpr
      ⟨le_refl _, by norm_num⟩
  · exact (claim3_classifier_boundaries 0.5 100 0.4999 (by norm_num)).1.mpr (by norm_num)
  · exact (claim3_classifier_boundaries 0.5 100 100 (by norm_num)).2.2.1.mpr
      ⟨by norm_num, le_refl _⟩
  · exact (claim3_classifier_boundaries 0.5 100 100.0001 (by norm_num)).2.1.mpr (by norm_num)

/-- C10: the classifier is total (always one of the three labels), a NaN
current classifies as "running" (both comparisons false), and the idle test
takes precedence even under misconfigured thresholds `fault ≤ idle`. -/
theorem claim10_classifier_total :
    (∀ i f x : FloatVal,
      StateClassifier.classifyF i f x = "idle" ∨
      StateClassifier.classifyF i f x = "running" ∨
      StateClassifier.classifyF i f x = "fault") ∧
    (∀ i f : FloatVal, StateClassifier.classifyF i f FloatVal.nan = "running") ∧
    (∀ qi qf qx : ℚ, qf ≤ qi → qx < qi →
      StateClassifier.classifyF (FloatVal.fin qi) (FloatVal.fin qf) (FloatVal.fin qx)
        = "idle") := by
  refine ⟨?_, ?_, ?_⟩
  · intro i f x
    unfold StateClassifier.classifyF
    split_ifs <;> simp
  · intro i f
    cases i <;> cases f <;> rfl
  · intro qi qf qx _ h2
    unfold StateClassifier.classifyF
    rw [if_pos]
    simp [FloatVal.lt, h2]

/-- Witness for the misconfigured-threshold part of C10 at thresholds 1 and 0. -/
theorem claim10_classifier_total_witness :
    StateClassifier.classifyF (FloatVal.fin 1) (FloatVal.fin 0) (FloatVal.fin (-1))
      = "idle" :=
  claim10_classifier_total.2.2 1 0 (-1) (by norm_num) (by norm_num)

theorem dataCount_append {α : Type} (l t : List (CSVLine α)) :
    dataCount (l ++ t) = dataCount l + dataCount t := by
  simp [dataCount, List.countP_append]

theorem dataCount_map_data {α : Type} (xs : List α) :
    dataCount (xs.map CSVLine.data) = xs.length := by
  induction xs with
  | nil => rfl
  | cons x xs ih => simp [dataCount, List.countP_cons, CSVLine.isData, ih]

theorem headerCount_append {α : Type} (l t : List (CSVLine α)) :
    headerCount (l ++ t) = headerCount l + headerCount t := by
  simp [headerCount, List.countP_append]

theorem headerCount_map_data {α : Type} (xs : List α) :
    headerCount (xs.map CSVLine.data) = 0 := by
  induction xs with
  | nil => rfl
  | cons x xs ih => simp [headerCount, List.countP_cons, CSVLine.isHeader, ih]

/-- A successful flush empties the buffer, adds the whole buffer to the counter
and appends it, in order, to the file; this also covers the empty no-op case. -/
theorem flush_true_spec {α : Type} (s : CSVLogger α) :
    (s.flush true).1.buffer = [] ∧
    (s.flush true).1.total_written = s.total_written + s.buffer.length ∧
    (s.flush true).1.file = s.file ++ s.buffer.map CSVLine.data ∧
    (s.flush true).1.flush_interval = s.flush_interval := by
  unfold CSVLogger.flush
  by_cases h : s.buffer.isEmpty
  · have hb : s.buffer = [] := by simpa using h
    simp [h, hb]
  · simp [h]

/-- Unfolding of `CSVLogger.log` in the two cases of the flush trigger. -/
theorem log_spec {α : Type} (s : CSVLogger α) (r : α) :
    (s.flush_interval ≤ s.buffer.length + 1 →
      s.log r = { file := s.file ++ (s.buffer ++ [r]).map CSVLine.data
                  buffer := []
                  total_written := s.total_written + (s.buffer.length + 1)
                  flush_interval := s.flush_interval
                  flush_count := s.flush_count + 1 }) ∧
    (¬ s.flush_interval ≤ s.buffer.length + 1 →
      s.log r = { s with buffer := s.buffer ++ [r] }) := by
  constructor
  · intro hc
    unfold CSVLogger.log CSVLogger.flush
    simp [hc]
  · intro hc
    unfold CSVLogger.log
    simp [hc]

/-- Counting behaviour of `CSVLogger.logMany` from a state whose buffer is
strictly below the (positive) flush interval: the buffer ends at the mod-F
residue, record count is conserved between counter and buffer, the ghost flush
counter advances by the number of completed intervals, and the file gains
exactly the flushed data rows. -/
theorem logMany_spec {α : Type} (rs : List α) :
    ∀ s : CSVLogger α, 1 ≤ s.flush_interval → s.buffer.length < s.flush_interval →
      (s.logMany rs).flush_interval = s.flush_interval ∧
      (s.logMany rs).buffer.length
        = (s.buffer.length + rs.length) % s.flush_interval ∧
      (s.logMany rs).total_written + (s.logMany rs).buffer.length
        = s.total_written + s.buffer.length + rs.length ∧
      (s.logMany rs).flush_count
        = s.flush_count + (s.buffer.length + rs.length) / s.flush_interval ∧
      dataCount (s.logMany rs).file + (s.logMany rs).buffer.length
        = dataCount s.file + s.buffer.length + rs.length := by
  induction rs with
  | nil =>
    intro s h1 h2
    simp [CSVLogger.logMany, Nat.mod_eq_of_lt h2, Nat.div_eq_of_lt h2]
  | cons r rs ih =>
    intro s h1 h2
    have hstep : s.logMany (r :: rs) = (s.log r).logMany rs := rfl
    by_cases hc : s.flush_interval ≤ s.buffer.length + 1
    · -- the flush triggers: the buffer has reached exactly the interval
      have hF : s.buffer.length + 1 = s.flush_interval := by omega
      have hlog := (log_spec s r).1 hc
      have p1 : (s.log r).flush_interval = s.flush_interval := by simp [hlog]
      have p2 : (s.log r).buffer.length = 0 := by simp [hlog]
      have p3 : (s.log r).total_written = s.total_written + (s.buffer.length + 1) := by
        simp [hlog]
      have p4 : (s.log r).flush_count = s.flush_count + 1 := by simp [hlog]
      have p5 : dataCount (s.log r).file = dataCount s.file + (s.buffer.length + 1) := by
        rw [hlog]
        show dataCount (s.file ++ (s.buffer ++ [r]).map CSVLine.data) = _
        rw [dataCount_append, dataCount_map_data]
        simp
      have hb1 : (s.log r).buffer.length < (s.log r).flush_interval := by
        rw [p1, p2]; omega
      have h11 : 1 ≤ (s.log r).flush_interval := by rw [p1]; exact h1
      obtain ⟨e1, e2, e3, e4, e5⟩ := ih (s.log r) h11 hb1
      rw [p1] at e1 e2 e4
      rw [p2] at e2 e3 e4 e5
      rw [p3] at e3
      rw [p4] at e4
      rw [p5] at e5
      simp only [Nat.zero_add, Nat.add_zero] at e2 e3 e4 e5
      rw [hstep]
      have hlen : s.buffer.length + (r :: rs).length = s.flush_interval + rs.length := by
        rw [List.length_cons]; omega
      refine ⟨e1, ?_, ?_, ?_, ?_⟩
      · rw [e2, hlen, Nat.add_mod_left]
      · rw [List.length_cons]; omega
      · rw [e4, hlen]
        rw [Nat.add_comm s.flush_interval rs.length,
          Nat.add_div_right _ (by omega : 0 < s.flush_interval)]
        omega
      · rw [List.length_cons]; omega
    · -- no flush: the record is only buffered
      have hlog := (log_spec s r).2 hc
      have p1 : (s.log r).flush_interval = s.flush_interval := by simp [hlog]
      have p2 : (s.log r).buffer.length = s.buffer.length + 1 := by simp [hlog]
      have p3 : (s.log r).total_written = s.total_written := by simp [hlog]
      have p4 : (s.log r).flush_count = s.flush_count := by simp [hlog]
      have p5 : dataCount (s.log r).file = dataCount s.file := by simp [hlog]
      have hb1 : (s.log r).buffer.length < (s.log r).flush_interval := by
        rw [p1, p2]; omega
      have h11 : 1 ≤ (s.log r).flush_interval := by rw [p1]; exact h1
      obtain ⟨e1, e2, e3, e4, e5⟩ := ih (s.log r) h11 hb1
      rw [p1] at e1 e2 e4
      rw [p2] at e2 e3 e4 e5
      rw [p3] at e3
      rw [p4] at e4
      rw [p5] at e5
      rw [hstep]
      have hlen : s.buffer.length + 1 + rs.length = s.buffer.length + (r :: rs).length := by
        rw [List.length_cons]; omega
      refine ⟨e1, ?_, ?_, ?_, ?_⟩
      · rw [e2, hlen]
      · rw [List.length_cons]; omega
      · rw [e4, hlen]
      · rw [List.length_cons]; omega

/-- C2: flush is a no-op on an empty buffer; on a nonempty buffer a successful
flush appends the whole buffer in insertion order as one write, adds its length
to the counter and clears the buffer; a failed append leaves the whole state
(file, buffer, counter) unmodified and reports failure. -/
theorem claim2_flush_atomic {α : Type} (s : CSVLogger α) :
    (s.buffer = [] → ∀ ok, s.flush ok = (s, true)) ∧
    (s.buffer ≠ [] →
      s.flush true =
        ({ file := s.file ++ s.buffer.map CSVLine.data
           buffer := []
           total_written := s.total_written + s.buffer.length
           flush_interval := s.flush_interval
           flush_count := s.flush_count + 1 }, true)) ∧
    (s.buffer ≠ [] → s.flush false = (s, false)) := by
    refine ⟨?_, ?_, ?_⟩
    · intro hb ok
      unfold CSVLogger.flush
      simp [hb]
    · intro hb
      unfold CSVLogger.flush
      simp [hb]
    · intro hb
      unfold CSVLogger.flush
      simp [hb]

/-- Witness for C2 at a concrete two-record buffer: failure leaves the state
unmodified, success appends both records and clears the buffer. -/
theorem claim2_flush_atomic_witness :
    (([7, 8] : List ℕ) ≠ []) ∧
    (CSVLogger.mk [CSVLine.header] [7, 8] 0 10 0).flush false
      = (CSVLogger.mk [CSVLine.header] [7, 8] 0 10 0, false) ∧
    (CSVLogger.mk [CSVLine.header] [7, 8] 0 10 0).flush true
      = ({ file := [CSVLine.header] ++ ([7, 8] : List ℕ).map CSVLine.data
           buffer := []
           total_written := 0 + ([7, 8] : List ℕ).length
           flush_interval := 10
           flush_count := 0 + 1 }, true) :=
  ⟨by decide,
   (claim2_flush_atomic (CSVLogger.mk [CSVLine.header] [7, 8] 0 10 0)).2.2 (by decide),
   (claim2_flush_atomic (CSVLogger.mk [CSVLine.header] [7, 8] 0 10 0)).2.1 (by decide)⟩

/-- C4: from a fresh logger with flush interval `F ≥ 1`, logging the records
`rs` (with `N = rs.length`) triggers exactly `N / F` automatic flushes, leaves
`N % F` records buffered with `F * (N / F)` written, a final explicit flush
persists exactly `N` records in total (counter and file agree), and after every
prefix of the logging sequence the buffer holds strictly fewer than `F`
records. -/
theorem claim4_roundtrip {α : Type} (F : ℕ) (rs : List α) (hF : 1 ≤ F) :
    ((CSVLogger.init F none).logMany rs).flush_count = rs.length / F ∧
    ((CSVLogger.init F none).logMany rs).buffer.length = rs.length % F ∧
    ((CSVLogger.init F none).logMany rs).total_written = F * (rs.length / F) ∧
    (((CSVLogger.init F none).logMany rs).flush true).1.total_written = rs.length ∧
    (((CSVLogger.init F none).logMany rs).flush true).1.buffer = [] ∧
    dataCount ((((CSVLogger.init F none).logMany rs).flush true).1.file)
      = rs.length ∧
    (∀ k, ((CSVLogger.init F none).logMany (rs.take k)).buffer.length < F) := by
  have hinit : (CSVLogger.init (α := α) F none).buffer.length
      < (CSVLogger.init (α := α) F none).flush_interval := by
    show 0 < F
    omega
  have h1 : 1 ≤ (CSVLogger.init (α := α) F none).flush_interval := hF
  have i1 : (CSVLogger.init (α := α) F none).flush_interval = F := rfl
  have i2 : (CSVLogger.init (α := α) F none).buffer.length = 0 := rfl
  have i3 : (CSVLogger.init (α := α) F none).total_written = 0 := rfl
  have i4 : (CSVLogger.init (α := α) F none).flush_count = 0 := rfl
  have i5 : dataCount (CSVLogger.init (α := α) F none).file = 0 := rfl
  obtain ⟨e1, e2, e3, e4, e5⟩ := logMany_spec rs (CSVLogger.init F none) h1 hinit
  rw [i1] at e1 e2 e4
  rw [i2] at e2 e3 e4 e5
  rw [i3] at e3
  rw [i4] at e4
  rw [i5] at e5
  simp only [Nat.zero_add, Nat.add_zero] at e2 e3 e4 e5
  have hdm := Nat.div_add_mod rs.length F
  obtain ⟨f1, f2, f3, _⟩ := flush_true_spec ((CSVLogger.init (α := α) F none).logMany rs)
  have e3m : ((CSVLogger.init (α := α) F none).logMany rs).total_written
      + rs.length % F = rs.length := by rw [← e2]; exact e3
  refine ⟨e4, e2, ?_, ?_, f1, ?_, ?_⟩
  · -- total_written = N - N % F = F * (N / F)
    exact Nat.add_right_cancel (e3m.trans hdm.symm)
  · rw [f2]
    exact e3
  · rw [f3, dataCount_append, dataCount_map_data]
    exact e5
  · intro k
    obtain ⟨g1, g2, _, _, _⟩ := logMany_spec (rs.take k) (CSVLogger.init F none) h1 hinit
    rw [i1] at g2
    rw [i2] at g2
    simp only [Nat.zero_add] at g2
    rw [g2]
    exact Nat.mod_lt ((rs.take k).length) (by omega : 0 < F)

/-- Witness for C4 with flush interval 2 and five records: two automatic
flushes, one record left buffered, four written, five after the final flush. -/
theorem claim4_roundtrip_witness :
    ((CSVLogger.init (α := ℕ) 2 none).logMany [0, 1, 2, 3, 4]).flush_count = 2 ∧
    ((CSVLogger.init (α := ℕ) 2 none).logMany [0, 1, 2, 3, 4]).buffer.length = 1 ∧
    ((CSVLogger.init (α := ℕ) 2 none).logMany [0, 1, 2, 3, 4]).total_written = 4 ∧
    (((CSVLogger.init (α := ℕ) 2 none).logMany [0, 1, 2, 3, 4]).flush true).1.total_written
      = 5 ∧
    ((CSVLogger.init (α := ℕ) 2 none).logMany ([0, 1, 2, 3, 4].take 3)).buffer.length
      < 2 := by
  have h := claim4_roundtrip (α := ℕ) 2 [0, 1, 2, 3, 4] (by decide)
  exact ⟨by simpa using h.1, by simpa using h.2.1, by simpa using h.2.2.1,
    by simpa using h.2.2.2.1, h.2.2.2.2.2.2 3⟩

/-- Every `LogOp` leaves the existing file contents as a prefix and appends
only data rows. -/
theorem applyOp_file {α : Type} (s : CSVLogger α) (op : LogOp α) :
    ∃ ds : List α, (s.applyOp op).file = s.file ++ ds.map CSVLine.data := by
  cases op with
  | reopen => exact ⟨[], by simp [CSVLogger.applyOp, CSVLogger.init]⟩
  | logRec r =>
    by_cases hc : s.flush_interval ≤ s.buffer.length + 1
    · exact ⟨s.buffer ++ [r], by simp [CSVLogger.applyOp, (log_spec s r).1 hc]⟩
    · exact ⟨[], by simp [CSVLogger.applyOp, (log_spec s r).2 hc]⟩
  | flushBuf => exact ⟨s.buffer, by simp [CSVLogger.applyOp, (flush_true_spec s).2.2.1]⟩

/-- Any sequence of `LogOp`s only ever appends data rows after the existing
file contents. -/
theorem applyOps_file {α : Type} (ops : List (LogOp α)) :
    ∀ s : CSVLogger α, ∃ ds : List α,
      (s.applyOps ops).file = s.file ++ ds.map CSVLine.data := by
  induction ops with
  | nil => intro s; exact ⟨[], by simp [CSVLogger.applyOps]⟩
  | cons op ops ih =>
    intro s
    obtain ⟨d0, hd0⟩ := applyOp_file s op
    obtain ⟨ds, hds⟩ := ih (s.applyOp op)
    refine ⟨d0 ++ ds, ?_⟩
    have hstep : s.applyOps (op :: ops) = (s.applyOp op).applyOps ops := rfl
    rw [hstep, hds, hd0]
    simp

/-- C6: opening the logger on a missing store writes exactly the header line
before any data; opening it on an existing store leaves the file exactly as it
was (no header written, no row rewritten or reordered); and along any sequence
of reopens, logs and flushes starting from a fresh store the header line occurs
exactly once, with existing contents only ever extended by data rows. -/
theorem claim6_header_idempotent {α : Type} :
    (∀ F : ℕ, (CSVLogger.init (α := α) F none).file = [CSVLine.header]) ∧
    (∀ (F : ℕ) (ls : List (CSVLine α)), (CSVLogger.init F (some ls)).file = ls) ∧
    (∀ (F : ℕ) (ops : List (LogOp α)),
      headerCount (((CSVLogger.init (α := α) F none).applyOps ops).file) = 1) ∧
    (∀ (s : CSVLogger α) (ops : List (LogOp α)), ∃ ds : List α,
      (s.applyOps ops).file = s.file ++ ds.map CSVLine.data) := by
  refine ⟨fun F => rfl, fun F ls => rfl, ?_, fun s ops => applyOps_file ops s⟩
  intro F ops
  obtain ⟨ds, hds⟩ := applyOps_file ops (CSVLogger.init (α := α) F none)
  rw [hds]
  simp [CSVLogger.init, headerCount_append, headerCount_map_data, headerCount,
    CSVLine.isHeader]

/-- `log` moves one record into the system: the written counter plus the
buffer length grow by exactly one. -/
theorem log_conservation {α : Type} (s : CSVLogger α) (r : α) :
    (s.log r).total_written + (s.log r).buffer.length
      = s.total_written + s.buffer.length + 1 := by
  by_cases hc : s.flush_interval ≤ s.buffer.length + 1
  · rw [(log_spec s r).1 hc]
    show s.total_written + (s.buffer.length + 1) + ([] : List α).length
      = s.total_written + s.buffer.length + 1
    simp only [List.length_nil, Nat.add_zero]
    omega
  · rw [(log_spec s r).2 hc]
    show s.total_written + (s.buffer ++ [r]).length
      = s.total_written + s.buffer.length + 1
    simp only [List.length_append, List.length_cons, List.length_nil]
    omega

/-- One collector step keeps the configuration, advances the cycle counter by
one, and moves exactly one record into the logger. -/
theorem step_spec (c : Collector) :
    c.step.cfg = c.cfg ∧
    c.step.record_count = c.record_count + 1 ∧
    c.step.logger.total_written + c.step.logger.buffer.length
      = c.logger.total_written + c.logger.buffer.length + 1 :=
  ⟨rfl, rfl, log_conservation c.logger _⟩

/-- Unfolding `Collector.run` one iteration. -/
theorem run_succ (fuel : ℕ) (c : Collector) :
    Collector.run (fuel + 1) c =
      if c.step.cfg.max_records ≠ 0 ∧ c.step.cfg.max_records ≤ c.step.record_count
      then some { c.step with logger := (c.step.logger.flush true).1 }
      else Collector.run fuel c.step := rfl

/-- With a positive maximum still ahead and enough fuel, the loop stops at
exactly the maximum, flushing everything on the way out. -/
theorem run_stops (fuel : ℕ) :
    ∀ c : Collector, c.cfg.max_records ≠ 0 →
      c.record_count < c.cfg.max_records →
      c.cfg.max_records ≤ c.record_count + fuel →
      c.logger.total_written + c.logger.buffer.length = c.record_count →
      ∃ c2, Collector.run fuel c = some c2 ∧
        c2.cfg = c.cfg ∧
        c2.record_count = c.cfg.max_records ∧
        c2.logger.total_written = c.cfg.max_records ∧
        c2.logger.buffer = [] := by
  induction fuel with
  | zero => intro c h0 h1 h2 _; omega
  | succ fuel ih =>
    intro c h0 h1 h2 hinv
    obtain ⟨s1, s2, s3⟩ := step_spec c
    rw [run_succ]
    by_cases hstop :
        c.step.cfg.max_records ≠ 0 ∧ c.step.cfg.max_records ≤ c.step.record_count
    · rw [if_pos hstop]
      rw [s1] at hstop
      obtain ⟨f1, f2, _, _⟩ := flush_true_spec c.step.logger
      have hcount : c.step.record_count = c.cfg.max_records := by
        rw [s2]; omega
      refine ⟨_, rfl, s1, hcount, ?_, f1⟩
      show (c.step.logger.flush true).1.total_written = c.cfg.max_records
      rw [f2]
      omega
    · rw [if_neg hstop]
      have hnle : ¬ c.cfg.max_records ≤ c.step.record_count := by
        intro hle
        exact hstop ⟨by rw [s1]; exact h0, by rw [s1]; exact hle⟩
      obtain ⟨c2, g0, g1, g2, g3, g4⟩ := ih c.step
        (by rw [s1]; exact h0)
        (by rw [s1]; omega)
        (by rw [s1, s2]; omega)
        (by rw [s3, hinv, s2])
      rw [s1] at g1 g2 g3
      exact ⟨c2, g0, g1, g2, g3, g4⟩

/-- With `MAX_RECORDS = 0` the break never fires: the loop consumes any amount
of fuel without stopping. -/
theorem run_unbounded (fuel : ℕ) :
    ∀ c : Collector, c.cfg.max_records = 0 → Collector.run fuel c = none := by
  induction fuel with
  | zero => intro c _; rfl
  | succ fuel ih =>
    intro c h0
    rw [run_succ, if_neg]
    · exact ih c.step (by rw [(step_spec c).1]; exact h0)
    · rw [(step_spec c).1, h0]
      simp

/-- C5: with a positive configured maximum `M` and at least `M` fuel, the loop
stops with the cycle counter at exactly `M`, and the unconditional final flush
leaves the buffer empty with the reported `total_written` equal to `M`; with a
configured maximum of 0 the loop never stops, whatever the fuel. -/
theorem claim5_stop_at_max (cfg : Config) (sensor : ℕ → ℝ)
    (existing : Option (List (CSVLine MeasurementRecord))) :
    (∀ fuel, 0 < cfg.max_records → cfg.max_records ≤ fuel →
      ∃ c2, Collector.run fuel (Collector.init cfg sensor existing) = some c2 ∧
        c2.record_count = cfg.max_records ∧
        c2.logger.total_written = cfg.max_records ∧
        c2.logger.buffer = []) ∧
    (cfg.max_records = 0 →
      ∀ fuel, Collector.run fuel (Collector.init cfg sensor existing) = none) := by
  constructor
  · intro fuel hpos hfuel
    obtain ⟨c2, g0, _, g2, g3, g4⟩ := run_stops fuel (Collector.init cfg sensor existing)
      (by show cfg.max_records ≠ 0; omega)
      (by show (0 : ℕ) < cfg.max_records; omega)
      (by show cfg.max_records ≤ 0 + fuel; omega)
      rfl
    exact ⟨c2, g0, g2, g3, g4⟩
  · intro h0 fuel
    exact run_unbounded fuel _ h0

/-- Witness for C5: the spec scenario, maximum 3 records with window size 1. -/
theorem claim5_stop_at_max_witness :
    (0 : ℕ) < 3 ∧ (3 : ℕ) ≤ 3 ∧
    ∃ c2, Collector.run 3
        (Collector.init (Config.mk 100 50 230 3 50 1 0.5 100 10 3)
          (fun _ => 1) none) = some c2 ∧
      c2.record_count = 3 ∧
      c2.logger.total_written = 3 ∧
      c2.logger.buffer = [] :=
  ⟨by decide, by decide,
    (claim5_stop_at_max (Config.mk 100 50 230 3 50 1 0.5 100 10 3)
      (fun _ => 1) none).1 3 (by decide) (by decide)⟩

/-- The window loop produces two events per iteration. -/
theorem sampleEvents_length (sensor : ℕ → ℝ) (interval : ℝ) :
    ∀ w idx : ℕ, (sampleEvents sensor interval idx w).length = 2 * w := by
  intro w
  induction w with
  | zero => intro idx; rfl
  | succ w ih =>
    intro idx
    simp only [sampleEvents, List.length_cons, ih (idx + 1)]
    omega

/-- The window loop draws exactly `w` samples. -/
theorem sampleEvents_filterMap_length (sensor : ℕ → ℝ) (interval : ℝ) :
    ∀ w idx : ℕ,
      ((sampleEvents sensor interval idx w).filterMap sampleValue).length = w := by
  intro w
  induction w with
  | zero => intro idx; rfl
  | succ w ih =>
    intro idx
    simp [sampleEvents, sampleValue, ih (idx + 1)]

/-- Exact shape of the window trace: position `2i` holds the `i`-th sample and
position `2i + 1` the sleep that follows it. -/
theorem sampleEvents_get (sensor : ℕ → ℝ) (interval : ℝ) :
    ∀ w idx i : ℕ, i < w →
      (sampleEvents sensor interval idx w)[2 * i]?
        = some (SampleEvent.sample (sensor (idx + i))) ∧
      (sampleEvents sensor interval idx w)[2 * i + 1]?
        = some (SampleEvent.sleep interval) := by
  intro w
  induction w with
  | zero => intro idx i h; exact absurd h (Nat.not_lt_zero i)
  | succ w ih =>
    intro idx i hi
    cases i with
    | zero => constructor <;> simp [sampleEvents]
    | succ i =>
      obtain ⟨g1, g2⟩ := ih (idx + 1) i (by omega)
      have ha : idx + 1 + i = idx + (i + 1) := by omega
      rw [ha] at g1
      constructor
      · have h2 : 2 * (i + 1) = 2 * i + 1 + 1 := by omega
        rw [h2]
        show (SampleEvent.sample (sensor idx) :: SampleEvent.sleep interval
          :: sampleEvents sensor interval (idx + 1) w)[2 * i + 1 + 1]? = _
        rw [List.getElem?_cons_succ, List.getElem?_cons_succ]
        exact g1
      · have h2 : 2 * (i + 1) + 1 = 2 * i + 1 + 1 + 1 := by omega
        rw [h2]
        show (SampleEvent.sample (sensor idx) :: SampleEvent.sleep interval
          :: sampleEvents sensor interval (idx + 1) w)[2 * i + 1 + 1 + 1]? = _
        rw [List.getElem?_cons_succ, List.getElem?_cons_succ]
        exact g2

/-- C7: one call to `sample_window` draws exactly `window size` samples from
the sensor; in its event trace the first event is a sample (no wait before the
first sample), each drawn sample sits at position `2i` followed at `2i + 1` by
a sleep of `1 / sample_rate` (so consecutive samples are separated by exactly
one such wait), and the returned value is the arithmetic mean of exactly those
`window size` samples. -/
theorem claim7_window (c : Collector) (hw : 1 ≤ c.cfg.averaging_window) :
    c.sample_window.1.length = 2 * c.cfg.averaging_window ∧
    (c.sample_window.1.filterMap sampleValue).length = c.cfg.averaging_window ∧
    (∀ i, i < c.cfg.averaging_window →
      c.sample_window.1[2 * i]?
        = some (SampleEvent.sample (c.sensor (c.sample_idx + i))) ∧
      c.sample_window.1[2 * i + 1]?
        = some (SampleEvent.sleep (1 / c.cfg.sample_rate_hz))) ∧
    c.sample_window.1[0]? = some (SampleEvent.sample (c.sensor c.sample_idx)) ∧
    c.sample_window.2.1
      = (c.sample_window.1.filterMap sampleValue).sum
          / (c.cfg.averaging_window : ℝ) := by
  have e1 : c.sample_window.1
      = sampleEvents c.sensor (1 / c.cfg.sample_rate_hz) c.sample_idx
          c.cfg.averaging_window := rfl
  refine ⟨?_, ?_, ?_, ?_, ?_⟩
  · rw [e1, sampleEvents_length]
  · rw [e1, sampleEvents_filterMap_length]
  · intro i hi
    rw [e1]
    exact sampleEvents_get _ _ _ _ i hi
  · have h0 := sampleEvents_get c.sensor (1 / c.cfg.sample_rate_hz)
      c.cfg.averaging_window c.sample_idx 0 (by omega)
    rw [e1]
    simpa using h0.1
  · show (c.sample_window.1.filterMap sampleValue).sum
        / ((c.sample_window.1.filterMap sampleValue).length : ℝ) = _
    rw [e1, sampleEvents_filterMap_length]

/-- Witness for C7 at window size 3 with the sensor stream `i ↦ i`. -/
theorem claim7_window_witness :
    (1 : ℕ) ≤ 3 ∧
    (Collector.init (Config.mk 100 50 230 3 50 3 0.5 100 10 0)
      (fun i => (i : ℝ)) none).sample_window.1.length = 6 ∧
    (Collector.init (Config.mk 100 50 230 3 50 3 0.5 100 10 0)
      (fun i => (i : ℝ)) none).sample_window.1[0]?
      = some (SampleEvent.sample 0) ∧
    (Collector.init (Config.mk 100 50 230 3 50 3 0.5 100 10 0)
      (fun i => (i : ℝ)) none).sample_window.1[2]?
      = some (SampleEvent.sample 1) := by
  have h := claim7_window (Collector.init (Config.mk 100 50 230 3 50 3 0.5 100 10 0)
    (fun i => (i : ℝ)) none) (by decide)
  refine ⟨by decide, ?_, ?_, ?_⟩
  · simpa [Collector.init] using h.1
  · simpa [Collector.init] using h.2.2.2.1
  · have h2 := (h.2.2.1 1 (by decide)).1
    simpa [Collector.init] using h2

/-- C8 (amended): for every calibration with positive gain and clamp rating
and every `v1 ≤ v2` with `0 ≤ v1`, the RMS output of `calculate` is
monotonically non-decreasing; the power output is monotonically non-decreasing
under the additional assumptions that the line voltage and the phase count are
nonnegative (which the spec invariants do not require). -/
theorem claim8_amended (m : PowerMath) (hg : 0 < m.gain) (hct : 0 < m.ct_range)
    (v1 v2 : ℝ) (_hv1 : 0 ≤ v1) (hv : v1 ≤ v2) :
    (m.calculate v1).1 ≤ (m.calculate v2).1 ∧
    (0 ≤ m.line_voltage → 0 ≤ m.phases →
      (m.calculate v1).2 ≤ (m.calculate v2).2) := by
  have hrms : (m.calculate v1).1 ≤ (m.calculate v2).1 := by
    show v1 / m.gain * m.ct_range * one_over_sqrt2
      ≤ v2 / m.gain * m.ct_range * one_over_sqrt2
    have h12 : v1 / m.gain ≤ v2 / m.gain := by
      exact div_le_div_of_nonneg_right hv hg.le
    have h3 : (0 : ℝ) ≤ one_over_sqrt2 := by
      unfold one_over_sqrt2
      positivity
    exact mul_le_mul_of_nonneg_right
      (mul_le_mul_of_nonneg_right h12 hct.le) h3
  refine ⟨hrms, fun hlv hph => ?_⟩
  have hph2 : (0 : ℝ) ≤ (m.phases : ℝ) := by exact_mod_cast hph
  show (m.phases : ℝ) * (m.calculate v1).1 * m.line_voltage
    ≤ (m.phases : ℝ) * (m.calculate v2).1 * m.line_voltage
  exact mul_le_mul_of_nonneg_right (mul_le_mul_of_nonneg_left hrms hph2) hlv

/-- Witness for the amended C8 statement: both conjuncts at gain 1, clamp 1,
230 V, 3 phases, and the RMS conjunct also at the negative line voltage -1,
which the power hypotheses exclude but the RMS assertion covers. -/
theorem claim8_amended_witness :
    ((0 : ℝ) < 1) ∧ ((1 : ℝ) ≤ 2) ∧ ((0 : ℝ) ≤ 230) ∧ ((0 : ℤ) ≤ 3) ∧
    ((PowerMath.mk 1 1 230 3).calculate 1).1 ≤ ((PowerMath.mk 1 1 230 3).calculate 2).1 ∧
    ((PowerMath.mk 1 1 230 3).calculate 1).2 ≤ ((PowerMath.mk 1 1 230 3).calculate 2).2 ∧
    ((PowerMath.mk 1 1 (-1) 1).calculate 1).1
      ≤ ((PowerMath.mk 1 1 (-1) 1).calculate 2).1 := by
  have h1 := claim8_amended (PowerMath.mk 1 1 230 3) (by norm_num) (by norm_num)
    1 2 (by norm_num) (by norm_num)
  have h2 := claim8_amended (PowerMath.mk 1 1 (-1) 1) (by norm_num) (by norm_num)
    1 2 (by norm_num) (by norm_num)
  exact ⟨by norm_num, by norm_num, by norm_num, by norm_num,
    h1.1, h1.2 (by norm_num) (by norm_num), h2.1⟩

/-- C8 counterexample: a configuration satisfying the validity invariants of
the spec (positive gain and clamp rating) with a negative line voltage makes
`power_w` strictly decreasing in the averaged voltage, refuting monotonicity
of the second output as claimed. -/
theorem claim8_counterexample :
    0 < (PowerMath.mk 1 1 (-1) 1).gain ∧
    0 < (PowerMath.mk 1 1 (-1) 1).ct_range ∧
    ((0 : ℝ) ≤ 0) ∧ ((0 : ℝ) ≤ 1) ∧
    ¬ (((PowerMath.mk 1 1 (-1) 1).calculate 0).2
        ≤ ((PowerMath.mk 1 1 (-1) 1).calculate 1).2) := by
  have hs : (0 : ℝ) < Real.sqrt 2 := Real.sqrt_pos.mpr (by norm_num)
  have h2 : (0 : ℝ) < 1 / Real.sqrt 2 := by positivity
  refine ⟨by norm_num, by norm_num, le_refl 0, by norm_num, ?_⟩
  simp only [PowerMath.calculate, one_over_sqrt2, not_le]
  push_cast
  nlinarith [h2, hs]

/-- C9 (amended): the constructor performs no configuration validation.  Even
with the thresholds misconfigured (`fault_threshold ≤ idle_threshold`) the
collector is constructed and the loop runs and produces records exactly as
with a valid configuration. -/
theorem claim9_amended (cfg : Config) (sensor : ℕ → ℝ)
    (existing : Option (List (CSVLine MeasurementRecord)))
    (_hbad : cfg.fault_threshold ≤ cfg.idle_threshold)
    (fuel : ℕ) (hpos : 0 < cfg.max_records) (hfuel : cfg.max_records ≤ fuel) :
    ∃ c2, Collector.run fuel (Collector.init cfg sensor existing) = some c2 ∧
      c2.record_count = cfg.max_records ∧
      c2.logger.total_written = cfg.max_records := by
  obtain ⟨c2, g0, _, g2, g3, _⟩ := run_stops fuel (Collector.init cfg sensor existing)
    (by show cfg.max_records ≠ 0; omega)
    (by show (0 : ℕ) < cfg.max_records; omega)
    (by show cfg.max_records ≤ 0 + fuel; omega)
    rfl
  exact ⟨c2, g0, g2, g3⟩

/-- Witness for the amended C9 statement: thresholds 5 and 1 (misconfigured),
maximum 2 records. -/
theorem claim9_amended_witness :
    ((1 : ℝ) ≤ 5) ∧ ((0 : ℕ) < 2) ∧ ((2 : ℕ) ≤ 2) ∧
    ∃ c2, Collector.run 2
        (Collector.init (Config.mk 100 50 230 3 50 1 5 1 10 2)
          (fun _ => 1) none) = some c2 ∧
      c2.record_count = 2 ∧
      c2.logger.total_written = 2 :=
  ⟨by norm_num, by decide, by decide,
    claim9_amended (Config.mk 100 50 230 3 50 1 5 1 10 2) (fun _ => 1) none
      (by show (1 : ℝ) ≤ 5; norm_num) 2 (by decide) (by decide)⟩

/-- C9 counterexample: with idle threshold 5 and fault threshold 1 the
configuration violates the invariant `idle_threshold < fault_threshold`, yet
construction succeeds and the loop produces a record (`total_written = 1`),
refuting that invariant violations are detected at construction and that no
record is ever produced under an invalid configuration. -/
theorem claim9_counterexample :
    ¬ ((Config.mk 100 50 230 3 50 1 5 1 10 1).idle_threshold
        < (Config.mk 100 50 230 3 50 1 5 1 10 1).fault_threshold) ∧
    ∃ c2, Collector.run 1
        (Collector.init (Config.mk 100 50 230 3 50 1 5 1 10 1)
          (fun _ => 1) none) = some c2 ∧
      c2.record_count = 1 ∧
      c2.logger.total_written = 1 := by
  constructor
  · show ¬ ((5 : ℝ) < 1)
    norm_num
  · obtain ⟨c2, g0, _, g2, g3, _⟩ := run_stops 1
      (Collector.init (Config.mk 100 50 230 3 50 1 5 1 10 1) (fun _ => 1) none)
      (by show (1 : ℕ) ≠ 0; decide)
      (by show (0 : ℕ) < 1; decide)
      (by show (1 : ℕ) ≤ 0 + 1; decide)
      rfl
    exact ⟨c2, g0, g2, g3⟩

end PowerMonitor
